import Mathlib

/-!
Verification development for the rulego-components-iot OPC UA adapter.

The Go source embedded here consists of two parts:
* the one-shot read component `ReadNode` (`OnMsg`): it acquires the shared
  client, unmarshals the node-identifier list from the message payload,
  performs a batched read, correlates per-node results back to the request,
  and forwards either a success or a failure message;
* the polling endpoint `OpcUa` (`Close`, `Start`, `AddRouter`, `readNodes`)
  built on a cron scheduler, a shared-client holder and an
  active-operation counter.

Pure data is embedded directly; the external protocol client is modelled by
passing its outcome (`Except`) as a parameter; Go `nil`-pointer results are
`Option`, and a nil dereference or an out-of-range index is modelled by the
whole computation returning `none` (a panic).  Machine integers (`uint32`
status codes, cron entry ids) are `Nat`; `time.Time` values are `Nat`
instants.
-/

set_option autoImplicit false

namespace OpcUaAdapter

/-- `ua.StatusOK` (status code 0 = good). -/
def statusOK : Nat := 0

/-- The protocol variant value carried by a read result (`*ua.Variant`
unwrapped to its native representation). -/
inductive VariantValue where
  | vInt (n : Int)
  | vStr (s : String)
  | vBool (b : Bool)
  | vNull
deriving DecidableEq

/-- One slot of the protocol response (`*ua.DataValue`): per-node status,
server/source timestamps and the value. -/
structure DataValue where
  status : Nat
  serverTimestamp : Nat
  sourceTimestamp : Nat
  value : VariantValue
deriving DecidableEq

/-- `opcuaClient.Data`, the Decoded Reading record that is marshalled to the
downstream pipeline. -/
structure Data where
  displayName : String
  nodeId : String
  recordTime : Nat
  sourceTime : Nat
  value : VariantValue
  floatValue : Int
  quality : Nat
  timestamp : Nat
deriving DecidableEq

/-- `*ua.ReadResponse`: the list of per-node result slots; a slot may be a
nil pointer (`none`). -/
structure ReadResponse where
  results : List (Option DataValue)
deriving DecidableEq

/-- Modelled from the spec: `Data.ParseValue` of the protocol-client package
(not under `src/`) attaches a best-effort secondary numeric parse to the
Decoded Reading and leaves the record unchanged when the value is not
numeric; its return values are discarded by the caller. -/
def parseValue (d : Data) : Data :=
  match d.value with
  | .vInt n => { d with floatValue := n }
  | _ => d

/-- The Decoded Reading built in the success branch of the `OnMsg` loop:
`Data{DisplayName: data[i].DisplayName, NodeId: data[i].NodeId,
RecordTime: result.ServerTimestamp, SourceTime: result.SourceTimestamp,
Value: result.Value.Value(), Quality: uint32(result.Status),
Timestamp: time.Now()}` followed by `ParseValue`. -/
def decodeData (old : Data) (r : DataValue) (now : Nat) : Data :=
  parseValue
    { displayName := old.displayName
      nodeId := old.nodeId
      recordTime := r.serverTimestamp
      sourceTime := r.sourceTimestamp
      value := r.value
      floatValue := 0
      quality := r.status
      timestamp := now }

/-- Modelled from the spec: `ua.StatusCode.Error()` of the protocol library
renders a status code as a non-empty human-readable string. -/
def statusError (s : Nat) : String :=
  "status error (code " ++ toString s ++ ")"

/-- State of the result-correlation loop in `ReadNode.OnMsg`: the `data`
slice, the `succ` flag and the `errs` slice. -/
structure LoopState where
  data : List Data
  succ : Bool
  errs : List String
deriving DecidableEq

/-- `errs := make([]string, 10)`: a slice of ten empty strings (length 10,
not capacity 10). -/
def initErrs : List String := List.replicate 10 ""

/-- One iteration of the `for i, result := range resp.Results` loop.
`result != nil && result.Status != ua.StatusOK` appends the status error
when `len(errs) < 10`; every other case (including `result == nil`) takes
the success branch, which indexes `data[i]` and dereferences `result`:
a nil `result` or an out-of-range index is a panic (`none`). -/
def processResult (now : Nat) (st : LoopState) (i : Nat) (result : Option DataValue) :
    Option LoopState :=
  match result with
  | some r =>
    if r.status ≠ statusOK then
      some { st with
        errs := if st.errs.length < 10 then st.errs ++ [statusError r.status] else st.errs }
    else
      match st.data[i]? with
      | some old =>
        some { st with data := st.data.set i (decodeData old r now), succ := true }
      | none => none
  | none => none

/-- Runs the correlation loop from position `i` over the remaining result
slots. -/
def runLoopAux (now : Nat) : LoopState → Nat → List (Option DataValue) → Option LoopState
  | st, _, [] => some st
  | st, i, r :: rest =>
    match processResult now st i r with
    | some st' => runLoopAux now st' (i + 1) rest
    | none => none

/-- The whole correlation loop of `ReadNode.OnMsg`, starting from
`succ := false` and `errs := make([]string, 10)`. -/
def runLoop (data : List Data) (results : List (Option DataValue)) (now : Nat) :
    Option LoopState :=
  runLoopAux now { data := data, succ := false, errs := initErrs } 0 results

/-- What `ReadNode.OnMsg` does with the message: `TellFailure` with an error
text, `TellSuccess` with the marshalled readings, or a runtime panic. -/
inductive Outcome where
  | failure (err : String)
  | success (data : List Data)
  | panic
deriving DecidableEq

/-- `fmt.Errorf("read failed: %q ", errs)`: the `%q` verb renders a string
slice as a bracketed list of double-quoted entries separated by spaces
(no entry of ours needs escaping). -/
def readFailedMsg (errs : List String) : String :=
  "read failed: [" ++ String.intercalate " " (errs.map fun e => "\"" ++ e ++ "\"") ++ "] "

/-- The shared `*opcua.Client` handle is opaque to this logic. -/
abbrev Client := Unit

/-- Whether the outcome is a message forwarded on the success path. -/
def Outcome.isSuccess : Outcome → Bool
  | .success _ => true
  | _ => false

/-- `ReadNode.OnMsg`.  The shared-client acquisition, the JSON unmarshal of
the identifier list and the batched read are external effects whose
outcomes are passed in; `json.Marshal` of the plain `Data` records is
total.  On a read error the message is told failure with exactly that
error; otherwise the correlation loop runs and the message is told success
with the (re-marshalled) `data` slice when at least one node succeeded, or
failure with the aggregated `errs` text when none did. -/
def onMsg (getClient : Except String Client) (unmarshal : Except String (List String))
    (read : Client → List String → Except String (List Data × ReadResponse))
    (now : Nat) : Outcome :=
  match getClient with
  | .error e => .failure e
  | .ok client =>
    match unmarshal with
    | .error e => .failure e
    | .ok nodeIds =>
      match read client nodeIds with
      | .error e => .failure e
      | .ok (data, resp) =>
        match runLoop data resp.results now with
        | none => .panic
        | some st =>
          if st.succ then .success st.data
          else .failure (readFailedMsg st.errs)

/-- Whether a result slot is non-nil with a good status (takes the success
branch of the loop without panicking). -/
def resultOK : Option DataValue → Bool
  | some v => v.status == statusOK
  | none => false

/-- The per-position effect of the loop on the `data` slice: a good-status
slot overwrites position `i` with the Decoded Reading, a failing slot
leaves the placeholder entry untouched. -/
def applyResult (old : Option Data) (r : Option DataValue) (now : Nat) : Option Data :=
  match r with
  | some v => if v.status = statusOK then old.map (fun o => decodeData o v now) else old
  | none => old

/-- Observable steps of `OpcUa.readNodes`: the active-operation counter
increment/decrement of the graceful-shutdown coordinator, and the dispatch
of the read data to the route (`DoProcess`). -/
inductive PollStep where
  | incr
  | decr
  | doProcess (data : List Data)
deriving DecidableEq

/-- `OpcUa.readNodes`: increments the active-operation counter on entry and
(by `defer`) decrements it on every exit path; between the two it acquires
the shared client, performs the batched read, and on success dispatches the
data to the route.  Returns the step trace and the returned error. -/
def readNodes (getClient : Except String Client)
    (read : Except String (List Data × ReadResponse)) :
    List PollStep × Option String :=
  match getClient with
  | .error e => ([.incr, .decr], some e)
  | .ok _ =>
    match read with
    | .error e => ([.incr, .decr], some e)
    | .ok (data, _) => ([.incr, .doProcess data, .decr], none)

/-- Value of the active-operation counter after one step. -/
def applyStep (c : Int) : PollStep → Int
  | .incr => c + 1
  | .decr => c - 1
  | .doProcess _ => c

/-- The successive values of the active-operation counter along a step
trace, starting from `c` (the trace of values includes `c` itself). -/
def counterTrace (c : Int) : List PollStep → List Int
  | [] => [c]
  | s :: rest => c :: counterTrace (applyStep c s) rest

/-- A downstream route (`endpointApi.Router`), identified by its id. -/
structure Router where
  id : String
deriving DecidableEq

/-- `OpcUa.AddRouter`: a nil router is rejected; a second router is rejected
as a duplicate with the attached route unchanged; otherwise the route slot
is filled and the router id returned. -/
def addRouter (current : Option Router) (router : Option Router) :
    Option Router × Except String String :=
  match router with
  | none => (current, .error "router cannot be nil")
  | some r =>
    match current with
    | some _ => (current, .error "duplicate router")
    | none => (some r, .ok r.id)

/-- The callback registered by `OpcUa.Start`: a fired tick checks
`x.Router != nil` and, only then, runs `readNodes` (whose error is
discarded).  With no route attached the tick performs no step at all. -/
def scheduledTick (router : Option Router) (getClient : Except String Client)
    (read : Except String (List Data × ReadResponse)) : List PollStep :=
  match router with
  | none => []
  | some _ => (readNodes getClient read).1

/-- A `cron.Cron` instance: its registered entry ids and whether its
scheduler is running. -/
structure CronState where
  entries : List Nat
  running : Bool
deriving DecidableEq

/-- `cron.Cron.Remove`: drops the entry with the given id. -/
def cronRemove (c : CronState) (id : Nat) : CronState :=
  { c with entries := c.entries.filter (fun e => e != id) }

/-- `cron.Cron.Stop`: stops the scheduler; entries stay registered but no
longer fire. -/
def cronStop (c : CronState) : CronState :=
  { c with running := false }

/-- `cron.New(...)`: a fresh instance with no entries, not yet running. -/
def cronNew : CronState := { entries := [], running := false }

/-- `cron.Cron.AddFunc` with a valid interval expression: registers one
entry and returns its id. -/
def cronAddFunc (c : CronState) (id : Nat) : CronState × Nat :=
  ({ c with entries := c.entries ++ [id] }, id)

/-- `cron.Cron.Start`: the scheduler begins firing its entries. -/
def cronStart (c : CronState) : CronState :=
  { c with running := true }

/-- Modelled from the spec: the `SharedNode` holder of the host library is
not under `src/`; per §4.1 it owns at most one live client and its `Close`
runs the registered teardown exactly once for a live client and is a no-op
afterwards. -/
structure SharedNodeState where
  client : Option Client
deriving DecidableEq

/-- Modelled from the spec: `SharedNode.Close` tears down the held client
through the cleanup function registered by `InitWithClose` (one teardown
call), and does nothing when no client is held. Returns the updated holder
and the number of teardown calls made. -/
def sharedNodeClose (st : SharedNodeState) : SharedNodeState × Nat :=
  match st.client with
  | some _ => ({ client := none }, 1)
  | none => (st, 0)

/-- The state of the `OpcUa` endpoint relevant to `Close`: the cron task,
the recorded entry id and the shared-client holder. -/
structure OpcUaState where
  cronTask : Option CronState
  taskId : Nat
  shared : SharedNodeState
deriving DecidableEq

/-- `OpcUa.Close`: removes the recorded cron entry when one exists, stops
the cron scheduler when one exists, closes the shared holder, and returns
`nil`.  The result carries the new state, the returned error and the number
of underlying teardown calls. -/
def opcUaClose (st : OpcUaState) : OpcUaState × Option String × Nat :=
  let c1 := match st.cronTask with
    | some c => some (if st.taskId ≠ 0 then cronRemove c st.taskId else c)
    | none => none
  let c2 := c1.map cronStop
  let sh := sharedNodeClose st.shared
  ({ cronTask := c2, taskId := st.taskId, shared := sh.1 }, none, sh.2)

/-- `n` successive calls of `OpcUa.Close`: final state, the list of returned
errors, and the total number of underlying teardown calls. -/
def closeCalls : Nat → OpcUaState → OpcUaState × List (Option String) × Nat
  | 0, st => (st, [], 0)
  | n + 1, st =>
    let r := opcUaClose st
    let rest := closeCalls n r.1
    (rest.1, r.2.1 :: rest.2.1, r.2.2 + rest.2.2)

/-- The state of the `OpcUa` endpoint relevant to `Start`: the cron
instances it abandoned on earlier starts (their goroutines were stopped
first), the current cron task, the recorded entry id and whether the shared
holder is initialized. -/
structure StartState where
  oldCrons : List CronState
  cronTask : Option CronState
  taskId : Nat
  sharedInit : Bool
deriving DecidableEq

/-- `OpcUa.Start` (with a valid interval expression): initializes the shared
holder when needed, stops the previous cron task when one exists, creates a
fresh cron, registers the poll callback as its single entry, records the
entry id and starts the scheduler. -/
def opcUaStart (st : StartState) (newId : Nat) : StartState :=
  let olds := match st.cronTask with
    | some c => st.oldCrons ++ [cronStop c]
    | none => st.oldCrons
  let added := cronAddFunc cronNew newId
  { oldCrons := olds
    cronTask := some (cronStart added.1)
    taskId := added.2
    sharedInit := true }

/-- Entries of a cron instance that actually fire: none unless its scheduler
is running. -/
def cronActive (c : CronState) : Nat :=
  if c.running then c.entries.length else 0

/-- Total number of schedule entries that can fire across every cron
instance the endpoint ever created. -/
def activeEntryCount (st : StartState) : Nat :=
  (st.oldCrons.map cronActive).sum +
    (match st.cronTask with
     | some c => cronActive c
     | none => 0)

/-- The endpoint before its first `Start`: no cron task, shared holder not
initialized. -/
def initStartState : StartState :=
  { oldCrons := [], cronTask := none, taskId := 0, sharedInit := false }

/-- Placeholder Decoded Reading for `ns=2;s=Tag1` as returned by the batched
read before correlation (identifier fields set, zero values). -/
def tag1Placeholder : Data :=
  { displayName := "ns=2;s=Tag1", nodeId := "ns=2;s=Tag1", recordTime := 0, sourceTime := 0
    value := .vNull, floatValue := 0, quality := 0, timestamp := 0 }

/-- Placeholder Decoded Reading for `ns=2;s=Tag2`. -/
def tag2Placeholder : Data :=
  { displayName := "ns=2;s=Tag2", nodeId := "ns=2;s=Tag2", recordTime := 0, sourceTime := 0
    value := .vNull, floatValue := 0, quality := 0, timestamp := 0 }

/-- `ua.StatusBadNodeIDUnknown` (0x80340000), a failing per-node status. -/
def badStatus : Nat := 2151677952

/-- Good result slot for `Tag1`: status OK, value 42. -/
def dvTag1Good : DataValue :=
  { status := statusOK, serverTimestamp := 5, sourceTimestamp := 4, value := .vInt 42 }

/-- Failing result slot for `Tag2`. -/
def dvTag2Bad : DataValue :=
  { status := badStatus, serverTimestamp := 0, sourceTimestamp := 0, value := .vNull }

/-- The two requested identifiers of the spec scenario. -/
def scenarioIds : List String := ["ns=2;s=Tag1", "ns=2;s=Tag2"]

/-- The `data` slice the batched read returns for the scenario. -/
def scenarioData : List Data := [tag1Placeholder, tag2Placeholder]

/-- The protocol response slots for the scenario: `Tag1` good (value 42),
`Tag2` bad status. -/
def scenarioResults : List (Option DataValue) := [some dvTag1Good, some dvTag2Bad]

/-- The mock transport of the scenario. -/
def scenarioRead : Client → List String → Except String (List Data × ReadResponse) :=
  fun _ _ => .ok (scenarioData, ⟨scenarioResults⟩)

/-- An endpoint state with a running schedule and a live shared client. -/
def sampleOpcUaState : OpcUaState :=
  { cronTask := some { entries := [1], running := true }
    taskId := 1
    shared := { client := some () } }

/-- The Decoded Reading built in the success branch preserves the node
identifier of the placeholder entry it overwrites. -/
theorem decodeData_nodeId (old : Data) (r : DataValue) (now : Nat) :
    (decodeData old r now).nodeId = old.nodeId := by
  unfold decodeData parseValue
  cases r.value <;> rfl

/-- The per-position effect of the loop never changes the node identifier
stored at a position. -/
theorem applyResult_map_nodeId (old : Option Data) (r : Option DataValue) (now : Nat) :
    (applyResult old r now).map Data.nodeId = old.map Data.nodeId := by
  cases r with
  | none => rfl
  | some v =>
    by_cases hv : v.status = statusOK
    · cases old with
      | none => simp [applyResult, hv]
      | some o => simp [applyResult, hv, decodeData_nodeId]
    · simp [applyResult, hv]

/-- Characterization of the correlation loop from position `i`, provided
every remaining slot is non-nil and the slots fit inside the `data` slice:
the loop completes without panicking, preserves the slice length and the
entries before `i`, sets `succ` exactly when some slot has a good status,
leaves `errs` unchanged whenever it already holds at least 10 entries, and
rewrites each position `i + k` according to slot `k`. -/
theorem runLoopAux_spec (now : Nat) (results : List (Option DataValue)) :
    ∀ (st : LoopState) (i : Nat),
      (∀ r ∈ results, r.isSome = true) →
      i + results.length ≤ st.data.length →
      ∃ st', runLoopAux now st i results = some st' ∧
        st'.data.length = st.data.length ∧
        st'.succ = (st.succ || results.any resultOK) ∧
        (10 ≤ st.errs.length → st'.errs = st.errs) ∧
        (∀ j, j < i → st'.data[j]? = st.data[j]?) ∧
        (∀ k, k < results.length →
          st'.data[i + k]? = applyResult (st.data[i + k]?) (results[k]?.getD none) now) := by
  induction results with
  | nil =>
    intro st i _ _
    refine ⟨st, rfl, rfl, by simp, fun _ => rfl, fun j _ => rfl, fun k hk => ?_⟩
    simp at hk
  | cons r rest ih =>
    intro st i hsome hlen
    obtain ⟨v, rfl⟩ : ∃ v, r = some v := by
      have h := hsome r (List.mem_cons_self r rest)
      cases r with
      | none => simp at h
      | some v => exact ⟨v, rfl⟩
    have hsome' : ∀ x ∈ rest, x.isSome = true := fun x hx => hsome x (List.mem_cons_of_mem _ hx)
    have hlen' : i + 1 + rest.length ≤ st.data.length := by
      simp only [List.length_cons] at hlen
      omega
    by_cases hv : v.status = statusOK
    · have hi : i < st.data.length := by omega
      have hold : st.data[i]? = some st.data[i] := List.getElem?_eq_getElem hi
      obtain ⟨st', hrun, hlen2, hsucc, herrs, hpre, hidx⟩ :=
        ih { st with data := st.data.set i (decodeData st.data[i] v now), succ := true }
          (i + 1) hsome'
          (by show i + 1 + rest.length ≤ (st.data.set i _).length
              simpa using hlen')
      have hresOK : resultOK (some v) = true := by
        simp [resultOK, hv]
      refine ⟨st', ?_, ?_, ?_, ?_, ?_, ?_⟩
      · have hstepEq : processResult now st i (some v) =
            some { st with data := st.data.set i (decodeData st.data[i] v now), succ := true } := by
          simp [processResult, hv, hold]
        simpa [runLoopAux, hstepEq] using hrun
      · simpa using hlen2
      · simp [hsucc, hresOK]
      · exact herrs
      · intro j hj
        rw [hpre j (by omega)]
        exact List.getElem?_set_ne (by omega)
      · intro k hk
        cases k with
        | zero =>
          have h0 := hpre i (by omega)
          rw [Nat.add_zero, h0]
          rw [List.getElem?_set_self hi]
          simp [applyResult, hv, hold]
        | succ k' =>
          have harith : i + (k' + 1) = i + 1 + k' := by omega
          rw [harith]
          have hk' : k' < rest.length := by
            simp only [List.length_cons] at hk
            omega
          rw [hidx k' hk']
          rw [List.getElem?_set_ne (by omega)]
          simp
    · have hres : (v.status == statusOK) = false := by
        cases h : v.status == statusOK with
        | true => exact absurd (eq_of_beq h) hv
        | false => rfl
      rcases Nat.lt_or_ge st.errs.length 10 with hlt | hge
      · obtain ⟨st', hrun, hlen2, hsucc, herrs, hpre, hidx⟩ :=
          ih { st with errs := st.errs ++ [statusError v.status] } (i + 1) hsome'
            (by show i + 1 + rest.length ≤ st.data.length
                exact hlen')
        refine ⟨st', ?_, ?_, ?_, ?_, ?_, ?_⟩
        · have hstepEq : processResult now st i (some v) =
              some { st with errs := st.errs ++ [statusError v.status] } := by
            simp [processResult, hv, hlt]
          simpa [runLoopAux, hstepEq] using hrun
        · simpa using hlen2
        · simp [hsucc, resultOK, hres]
        · intro h10
          omega
        · intro j hj
          exact hpre j (by omega)
        · intro k hk
          cases k with
          | zero =>
            rw [Nat.add_zero]
            rw [hpre i (by omega)]
            simp [applyResult, hv]
          | succ k' =>
            have harith : i + (k' + 1) = i + 1 + k' := by omega
            rw [harith]
            have hk' : k' < rest.length := by
              simp only [List.length_cons] at hk
              omega
            rw [hidx k' hk']
            simp
      · have hnlt : ¬ st.errs.length < 10 := by omega
        obtain ⟨st', hrun, hlen2, hsucc, herrs, hpre, hidx⟩ :=
          ih st (i + 1) hsome' hlen'
        refine ⟨st', ?_, ?_, ?_, ?_, ?_, ?_⟩
        · have hstepEq : processResult now st i (some v) = some st := by
            simp [processResult, hv, hnlt]
          simpa [runLoopAux, hstepEq] using hrun
        · exact hlen2
        · simp [hsucc, resultOK, hres]
        · exact fun _ => herrs hge
        · intro j hj
          exact hpre j (by omega)
        · intro k hk
          cases k with
          | zero =>
            rw [Nat.add_zero]
            rw [hpre i (by omega)]
            simp [applyResult, hv]
          | succ k' =>
            have harith : i + (k' + 1) = i + 1 + k' := by omega
            rw [harith]
            have hk' : k' < rest.length := by
              simp only [List.length_cons] at hk
              omega
            rw [hidx k' hk']
            simp

/-- Characterization of the whole correlation loop of `OnMsg`: with non-nil
slots fitting inside the `data` slice it never panics, keeps exactly one
position per placeholder entry, sets `succ` exactly when some slot has a
good status, never adds anything to the `errs` slice (it starts at length
10), and rewrites position `k` according to slot `k`. -/
theorem runLoop_spec (data : List Data) (results : List (Option DataValue)) (now : Nat)
    (hsome : ∀ r ∈ results, r.isSome = true) (hlen : results.length ≤ data.length) :
    ∃ st, runLoop data results now = some st ∧
      st.data.length = data.length ∧
      st.succ = results.any resultOK ∧
      st.errs = initErrs ∧
      (∀ k, k < results.length →
        st.data[k]? = applyResult (data[k]?) (results[k]?.getD none) now) := by
  obtain ⟨st, hrun, hlen2, hsucc, herrs, _, hidx⟩ :=
    runLoopAux_spec now results { data := data, succ := false, errs := initErrs } 0
      hsome (by simpa using hlen)
  refine ⟨st, hrun, hlen2, by simpa using hsucc, herrs (by simp [initErrs]), fun k hk => ?_⟩
  simpa using hidx k hk

/-- Claim C1: when the transport succeeds and every requested node fails,
`OnMsg` is supposed to report an error text aggregating the actual
status-error strings of up to 10 failing nodes; in fact `errs` is created
as `make([]string, 10)` — ten empty strings — so the `len(errs) < 10`
guard never fires and the reported text is built from ten empty strings,
with the failing node's actual status-error string absent. -/
theorem readNode_error_text_contains_no_status_reasons :
    onMsg (.ok ()) (.ok ["ns=2;s=Tag1"])
        (fun _ _ => .ok ([tag1Placeholder], ⟨[some dvTag2Bad]⟩)) 0
      = .failure (readFailedMsg (List.replicate 10 "")) ∧
    statusError badStatus ∉ List.replicate 10 "" := by
  exact ⟨by decide, by decide⟩

/-- Claim C2 (counterexample): in the spec scenario — identifiers `Tag1`
and `Tag2`, `Tag1` good with value 42, `Tag2` bad status — the message
forwarded on the success path carries two entries, not one: position 0 is
the Decoded Reading for `Tag1` and position 1 is the unmodified placeholder
entry for the failed `Tag2`, so the output does not contain entries only
for the succeeding nodes. -/
theorem readNode_partial_success_forwards_placeholder_for_failed_node :
    onMsg (.ok ()) (.ok scenarioIds) scenarioRead 7
      = .success [decodeData tag1Placeholder dvTag1Good 7, tag2Placeholder] ∧
    [decodeData tag1Placeholder dvTag1Good 7, tag2Placeholder].length = 2 := by
  exact ⟨by decide, rfl⟩

/-- Claim C2 (amended): for a transport-level success with at least one
good per-node status, `OnMsg` forwards on the success path one entry per
requested position: positions with a good status are overwritten with the
Decoded Reading built from that slot, and positions with a failing status
retain the placeholder entry returned by the batched read; the failing
statuses are not reported on this path. -/
theorem readNode_partial_success_forwards_all_positions
    (client : Client) (ids : List String) (now : Nat)
    (data : List Data) (results : List (Option DataValue))
    (hsome : ∀ r ∈ results, r.isSome = true)
    (hlen : results.length = data.length)
    (hex : results.any resultOK = true) :
    ∃ out, onMsg (.ok client) (.ok ids) (fun _ _ => .ok (data, ⟨results⟩)) now
        = .success out ∧
      out.length = data.length ∧
      (∀ k, k < results.length →
        out[k]? = applyResult (data[k]?) (results[k]?.getD none) now) := by
  obtain ⟨st, hrun, hlen2, hsucc, -, hidx⟩ :=
    runLoop_spec data results now hsome (le_of_eq hlen)
  refine ⟨st.data, ?_, hlen2, hidx⟩
  simp [onMsg, hrun, hsucc, hex]

/-- Witness for claim C2 (amended): the spec scenario instantiates the
amended statement. -/
theorem readNode_partial_success_forwards_all_positions_witness :
    ∃ out, onMsg (.ok ()) (.ok scenarioIds) scenarioRead 7 = .success out ∧
      out.length = scenarioData.length ∧
      (∀ k, k < scenarioResults.length →
        out[k]? = applyResult (scenarioData[k]?) (scenarioResults[k]?.getD none) 7) :=
  readNode_partial_success_forwards_all_positions () scenarioIds 7 scenarioData
    scenarioResults (by decide) (by decide) (by decide)

/-- Claim C3: for a transport-level success over non-nil result slots that
fit inside the returned `data` slice, `OnMsg` forwards the message on the
success path exactly when at least one per-node status is good, and when
every node fails it tells failure (with the aggregated-`errs` text, which
is the untouched initial slice). -/
theorem readNode_succeeds_iff_some_node_ok
    (client : Client) (ids : List String) (now : Nat)
    (data : List Data) (results : List (Option DataValue))
    (hsome : ∀ r ∈ results, r.isSome = true)
    (hlen : results.length ≤ data.length) :
    (onMsg (.ok client) (.ok ids) (fun _ _ => .ok (data, ⟨results⟩)) now).isSuccess
      = results.any resultOK ∧
    (results.any resultOK = false →
      onMsg (.ok client) (.ok ids) (fun _ _ => .ok (data, ⟨results⟩)) now
        = .failure (readFailedMsg initErrs)) := by
  obtain ⟨st, hrun, -, hsucc, herrs, -⟩ := runLoop_spec data results now hsome hlen
  have hred : onMsg (.ok client) (.ok ids) (fun _ _ => .ok (data, ⟨results⟩)) now
      = if st.succ then Outcome.success st.data else Outcome.failure (readFailedMsg st.errs) := by
    simp [onMsg, hrun]
  cases hany : results.any resultOK with
  | true =>
    rw [hany] at hsucc
    refine ⟨?_, fun hcontra => by simp [hany] at hcontra⟩
    rw [hred, hsucc]
    rfl
  | false =>
    rw [hany] at hsucc
    have hfail : onMsg (.ok client) (.ok ids) (fun _ _ => .ok (data, ⟨results⟩)) now
        = .failure (readFailedMsg initErrs) := by
      rw [hred, hsucc, herrs]
      rfl
    exact ⟨by rw [hfail]; rfl, fun _ => hfail⟩

/-- Witness for claim C3: the spec scenario (one good node, one failing
node) instantiates the statement; the left-hand side evaluates to `true`
on both sides of the equality. -/
theorem readNode_succeeds_iff_some_node_ok_witness :
    (onMsg (.ok ()) (.ok scenarioIds) scenarioRead 7).isSuccess
      = scenarioResults.any resultOK ∧
    (scenarioResults.any resultOK = false →
      onMsg (.ok ()) (.ok scenarioIds) scenarioRead 7
        = .failure (readFailedMsg initErrs)) :=
  readNode_succeeds_iff_some_node_ok () scenarioIds 7 scenarioData scenarioResults
    (by decide) (by decide)

/-- Claim C4: for a transport-level success whose response has one non-nil
slot per requested identifier and whose `data` slice is aligned with the
identifiers, the correlation loop completes with exactly K positions: the
node identifier stored at position i is the i-th requested identifier, and
a good slot i produces the Decoded Reading decoded from slot i stored back
at position i (a failing slot leaves position i untouched). -/
theorem readNode_result_aligned_by_index
    (ids : List String) (data : List Data) (results : List (Option DataValue)) (now : Nat)
    (hsome : ∀ r ∈ results, r.isSome = true)
    (hrk : results.length = ids.length)
    (hdk : data.length = ids.length)
    (hid : ∀ i : Nat, (data[i]?).map Data.nodeId = ids[i]?) :
    ∃ st, runLoop data results now = some st ∧
      st.data.length = ids.length ∧
      (∀ i : Nat, (st.data[i]?).map Data.nodeId = ids[i]?) ∧
      (∀ k, k < results.length →
        st.data[k]? = applyResult (data[k]?) (results[k]?.getD none) now) := by
  obtain ⟨st, hrun, hlen2, -, -, hidx⟩ :=
    runLoop_spec data results now hsome (by omega)
  refine ⟨st, hrun, by omega, ?_, hidx⟩
  intro i
  by_cases hi : i < results.length
  · rw [hidx i hi, applyResult_map_nodeId, hid i]
  · have h1 : st.data[i]? = none := List.getElem?_eq_none (by omega)
    have h2 : ids[i]? = none := List.getElem?_eq_none (by omega)
    simp [h1, h2]

/-- Witness for claim C4: the spec scenario instantiates the alignment
statement. -/
theorem readNode_result_aligned_by_index_witness :
    ∃ st, runLoop scenarioData scenarioResults 7 = some st ∧
      st.data.length = scenarioIds.length ∧
      (∀ i : Nat, (st.data[i]?).map Data.nodeId = scenarioIds[i]?) ∧
      (∀ k, k < scenarioResults.length →
        st.data[k]? = applyResult (scenarioData[k]?) (scenarioResults[k]?.getD none) 7) :=
  readNode_result_aligned_by_index scenarioIds scenarioData scenarioResults 7
    (by decide) (by decide) (by decide)
    (by
      intro i
      match i with
      | 0 => rfl
      | 1 => rfl
      | n + 2 => rfl)

/-- Claim C5: a transport-level error from the batched read aborts the
whole operation: `OnMsg` tells failure with exactly that error (no
readings are forwarded), and the endpoint's `readNodes` returns exactly
that error without dispatching anything to the route. -/
theorem readNode_transport_error_aborts
    (e : String) (client : Client) (ids : List String) (now : Nat) :
    onMsg (.ok client) (.ok ids) (fun _ _ => .error e) now = .failure e ∧
    readNodes (.ok client) (.error e) = ([.incr, .decr], some e) := by
  exact ⟨rfl, rfl⟩

/-- Claim C10: a nil per-node result slot falls into the success branch of
the correlation loop, whose body dereferences it, so the loop panics on
any nil slot (first conjunct: a concrete nil slot); decoding is
well-defined whenever every slot is non-nil and the slots fit inside the
`data` slice (second conjunct). -/
theorem nil_result_reaches_success_branch_and_panics
    (data : List Data) (results : List (Option DataValue)) (now : Nat)
    (hsome : ∀ r ∈ results, r.isSome = true)
    (hlen : results.length ≤ data.length) :
    runLoop [tag1Placeholder] [none] now = none ∧
    (runLoop data results now).isSome = true := by
  constructor
  · rfl
  · obtain ⟨st, hrun, -, -, -, -⟩ := runLoop_spec data results now hsome hlen
    simp [hrun]

/-- Witness for claim C10: the spec scenario's non-nil slots instantiate
the no-panic statement. -/
theorem nil_result_reaches_success_branch_and_panics_witness :
    runLoop [tag1Placeholder] [none] 0 = none ∧
    (runLoop scenarioData scenarioResults 0).isSome = true :=
  nil_result_reaches_success_branch_and_panics scenarioData scenarioResults 0
    (by decide) (by decide)

/-- Every single `OpcUa.Close` call returns no error. -/
theorem opcUaClose_err_none (st : OpcUaState) : (opcUaClose st).2.1 = none := rfl

/-- The list of errors returned by `n` successive `Close` calls is `n`
times no-error. -/
theorem closeCalls_errs (n : Nat) : ∀ st : OpcUaState,
    (closeCalls n st).2.1 = List.replicate n none := by
  induction n with
  | zero => intro st; rfl
  | succ m ih =>
    intro st
    simp [closeCalls, opcUaClose_err_none, ih, List.replicate_succ]

/-- A `Close` call leaves the shared holder without a client. -/
theorem opcUaClose_shared_none (st : OpcUaState) :
    (opcUaClose st).1.shared.client = none := by
  cases hc : st.shared.client <;> simp [opcUaClose, sharedNodeClose, hc]

/-- Once the shared holder has no client, further `Close` calls make no
teardown call. -/
theorem closeCalls_teardown_zero (n : Nat) : ∀ st : OpcUaState,
    st.shared.client = none → (closeCalls n st).2.2 = 0 := by
  induction n with
  | zero => intro st _; rfl
  | succ m ih =>
    intro st hc
    have h1 : (opcUaClose st).2.2 = 0 := by simp [opcUaClose, sharedNodeClose, hc]
    have h2 := ih (opcUaClose st).1 (opcUaClose_shared_none st)
    simp [closeCalls, h1, h2]

/-- Claim C6: `OpcUa.Close` is idempotent: any number `n ≥ 1` of calls —
also when no client was ever established — each return no error, and the
underlying session teardown runs exactly once when a client is held and
never otherwise. -/
theorem opcUaClose_idempotent_single_teardown (st : OpcUaState) (n : Nat) (h : 1 ≤ n) :
    (closeCalls n st).2.1 = List.replicate n none ∧
    (closeCalls n st).2.2 = (if st.shared.client.isSome then 1 else 0) := by
  refine ⟨closeCalls_errs n st, ?_⟩
  obtain ⟨m, rfl⟩ : ∃ m, n = m + 1 := ⟨n - 1, by omega⟩
  have hrest := closeCalls_teardown_zero m (opcUaClose st).1 (opcUaClose_shared_none st)
  cases hc : st.shared.client with
  | none =>
    have h1 : (opcUaClose st).2.2 = 0 := by simp [opcUaClose, sharedNodeClose, hc]
    simp [closeCalls, h1, hrest, hc]
  | some c =>
    have h1 : (opcUaClose st).2.2 = 1 := by simp [opcUaClose, sharedNodeClose, hc]
    simp [closeCalls, h1, hrest, hc]

/-- Witness for claim C6: three `Close` calls on a state with a running
schedule and a live client return no error three times and tear the
session down once. -/
theorem opcUaClose_idempotent_single_teardown_witness :
    (closeCalls 3 sampleOpcUaState).2.1 = List.replicate 3 none ∧
    (closeCalls 3 sampleOpcUaState).2.2
      = (if sampleOpcUaState.shared.client.isSome then 1 else 0) :=
  opcUaClose_idempotent_single_teardown sampleOpcUaState 3 (by decide)

/-- A list of stopped cron instances contributes no firing entries. -/
theorem sum_cronActive_zero (l : List CronState) (h : ∀ c ∈ l, c.running = false) :
    (l.map cronActive).sum = 0 :=
  List.sum_eq_zero (by
    intro x hx
    obtain ⟨c, hc, rfl⟩ := List.mem_map.mp hx
    simp [cronActive, h c hc])

/-- One `Start` call from a state whose abandoned cron instances are all
stopped: the abandoned instances (including the just-replaced one) stay
stopped, and exactly one schedule entry is active afterwards. -/
theorem startStep_good (st : StartState) (id : Nat)
    (h : ∀ c ∈ st.oldCrons, c.running = false) :
    (∀ c ∈ (opcUaStart st id).oldCrons, c.running = false) ∧
      activeEntryCount (opcUaStart st id) = 1 := by
  constructor
  · intro c hc
    cases hcur : st.cronTask with
    | none =>
      simp [opcUaStart, hcur] at hc
      exact h c hc
    | some c0 =>
      simp [opcUaStart, hcur] at hc
      rcases hc with hc | rfl
      · exact h c hc
      · rfl
  · cases hcur : st.cronTask with
    | none =>
      have hz := sum_cronActive_zero st.oldCrons h
      simp [activeEntryCount, opcUaStart, hcur, cronStart, cronAddFunc, cronNew,
        cronActive, hz]
    | some c0 =>
      have hz := sum_cronActive_zero st.oldCrons h
      simp [activeEntryCount, opcUaStart, hcur, cronStart, cronAddFunc, cronNew,
        cronActive, cronStop, hz]

/-- Any further sequence of `Start` calls preserves the single-active-entry
invariant. -/
theorem foldl_start_good (ids : List Nat) :
    ∀ st : StartState, (∀ c ∈ st.oldCrons, c.running = false) →
      activeEntryCount st = 1 →
      activeEntryCount (ids.foldl opcUaStart st) = 1 := by
  induction ids with
  | nil =>
    intro st _ h1
    simpa using h1
  | cons a t ih =>
    intro st h h1
    have hg := startStep_good st a h
    simpa [List.foldl_cons] using ih (opcUaStart st a) hg.1 hg.2

/-- Claim C7: `OpcUa.Start` stops the previous schedule before registering
the new one, so after any non-empty sequence of `Start` calls from the
fresh endpoint exactly one schedule entry is active — no two schedules
coexist and no entry fires twice. -/
theorem opcUaStart_single_active_schedule (ids : List Nat) (h : ids ≠ []) :
    activeEntryCount (ids.foldl opcUaStart initStartState) = 1 := by
  cases ids with
  | nil => exact absurd rfl h
  | cons a t =>
    have hg := startStep_good initStartState a (by
      intro c hc
      simp [initStartState] at hc)
    simpa [List.foldl_cons] using foldl_start_good t (opcUaStart initStartState a) hg.1 hg.2

/-- Witness for claim C7: starting twice leaves exactly one active
schedule entry. -/
theorem opcUaStart_single_active_schedule_witness :
    activeEntryCount ([1, 2].foldl opcUaStart initStartState) = 1 :=
  opcUaStart_single_active_schedule [1, 2] (by decide)

/-- Claim C8: every `readNodes` poll increments the active-operation
counter on entry and decrements it on every exit path — the failed-client
path, the failed-read path and the success path — so the counter returns
to its prior value after the call and never drops below zero along the
way when it starts nonnegative. -/
theorem readNodes_counter_balanced_nonnegative
    (getClient : Except String Client) (read : Except String (List Data × ReadResponse))
    (c : Int) (h : 0 ≤ c) :
    List.foldl applyStep c (readNodes getClient read).1 = c ∧
    (∀ v ∈ counterTrace c (readNodes getClient read).1, 0 ≤ v) := by
  rcases getClient with e | client
  · refine ⟨?_, ?_⟩
    · simp only [readNodes, List.foldl, applyStep]
      omega
    · intro v hv
      simp only [readNodes, counterTrace, applyStep, List.mem_cons,
        List.not_mem_nil, or_false] at hv
      rcases hv with rfl | rfl | rfl <;> omega
  · rcases read with e | ⟨data, resp⟩
    · refine ⟨?_, ?_⟩
      · simp only [readNodes, List.foldl, applyStep]
        omega
      · intro v hv
        simp only [readNodes, counterTrace, applyStep, List.mem_cons,
          List.not_mem_nil, or_false] at hv
        rcases hv with rfl | rfl | rfl <;> omega
    · refine ⟨?_, ?_⟩
      · simp only [readNodes, List.foldl, applyStep]
        omega
      · intro v hv
        simp only [readNodes, counterTrace, applyStep, List.mem_cons,
          List.not_mem_nil, or_false] at hv
        rcases hv with rfl | rfl | rfl | rfl <;> omega

/-- Witness for claim C8: a successful poll from counter value 0. -/
theorem readNodes_counter_balanced_nonnegative_witness :
    List.foldl applyStep 0
        (readNodes (.ok ()) (.ok (scenarioData, ⟨scenarioResults⟩))).1 = 0 ∧
    (∀ v ∈ counterTrace 0
        (readNodes (.ok ()) (.ok (scenarioData, ⟨scenarioResults⟩))).1, 0 ≤ v) :=
  readNodes_counter_balanced_nonnegative (.ok ()) (.ok (scenarioData, ⟨scenarioResults⟩))
    0 (by decide)

/-- Claim C9: the endpoint holds at most one route: `AddRouter` rejects a
nil router, rejects a second router as a duplicate leaving the attached
route unchanged, and a scheduled tick that fires with no route attached
performs no step at all (no error, no dispatch). -/
theorem addRouter_at_most_one_route_and_nil_tick_noop
    (cur : Option Router) (r0 r : Router)
    (getClient : Except String Client) (read : Except String (List Data × ReadResponse)) :
    addRouter cur none = (cur, .error "router cannot be nil") ∧
    addRouter (some r0) (some r) = (some r0, .error "duplicate router") ∧
    scheduledTick none getClient read = [] := by
  exact ⟨rfl, rfl, rfl⟩

end OpcUaAdapter
